import Mathlib

/-!
Shallow embedding of the message-batching and conversation-state-continuity
layer of the ai-insurance Telegram bot:
  - the media-group aggregator and per-conversation dispatcher
    (src/bot/handlers.py),
  - the turn-processing service with its inline history trimmer
    (src/services/ai_service.py),
  - the conversation store read path (src/services/database.py).

Python dicts used as maps are embedded as functions into Option; mutation is
embedded as explicit state passing; a propagating Python exception is embedded
as an error value threaded out of the function.
-/

/-- One item of a stored turn history.  In the source an item is an arbitrary
dict (TResponseInputItem); the core only inspects an optional "call_id" key
(ai_service.py:495-505).  `callId = none` embeds a dict without the key;
`callId = some ""` embeds a present but falsy value, which the source treats
like an absent one when deciding whether to cascade a removal.  The remaining
fields stand for the opaque payload. -/
structure TurnItem where
  callId : Option String
  content : String
  role : String
deriving DecidableEq

/-- The correlation identifier of an item when the source's truthiness test
`if call_id_to_remove:` (ai_service.py:497) passes, and none otherwise. -/
def truthyCallId (it : TurnItem) : Option String :=
  match it.callId with
  | some c => if c = "" then none else some c
  | none => none

/-- One iteration tail of the trim loop: the source pops the oldest item `x`
and, when `x` carries a truthy call_id, filters every remaining item holding
the same call_id out of the list (ai_service.py:490-506). -/
def trimRest (x : TurnItem) (xs : List TurnItem) : List TurnItem :=
  match truthyCallId x with
  | some c => xs.filter (fun it => decide (¬ it.callId = some c))
  | none => xs

/-- The inline `while len(input_list) >= self.max_messages` loop of
AIService.respond (ai_service.py:487-506).  Reading `input_list[0]` from an
empty list raises IndexError in Python; that propagating exception is embedded
as `none`. -/
def trim_input_list (m : Nat) (l : List TurnItem) : Option (List TurnItem) :=
  if m ≤ l.length then
    match l with
    | [] => none
    | x :: xs => trim_input_list m (trimRest x xs)
  else
    some l
termination_by l.length
decreasing_by
  have hle : (trimRest x xs).length ≤ xs.length := by
    unfold trimRest
    cases truthyCallId x
    · exact Nat.le_refl _
    · exact List.length_filter_le _ _
  exact Nat.lt_succ_of_le hle

/-- Number of items of `l` carrying exactly the call_id `c`. -/
def callIdCount (c : String) (l : List TurnItem) : Nat :=
  (l.filter (fun it => decide (it.callId = some c))).length

/-- A Telegram message as this layer inspects it.  `photo` holds the file ids
of the size variants; the source uses the last one (ai_service.py:521-525). -/
structure Msg where
  message_id : Nat
  chat : Int
  media_group_id : Option String
  text : Option String
  document : Option String
  photo : List String
deriving DecidableEq

/-- Aggregator state: the `media_groups` dict of MessageHandlers
(handlers.py:44).  `none` embeds a key absent from the dict; the defaultdict
only ever materialises a key together with its first appended message, and
process_media_group deletes the whole key, so present values are the pending
messages in arrival order. -/
structure AggState where
  groups : String → Option (List Msg)

/-- MessageHandlers._handle_media_group_message (handlers.py:170-193): under
the group's lock, append the message to its pending group; iff the group now
holds exactly one message, schedule the debounce task (returned Bool). -/
def handle_media_group_message (st : AggState) (msg : Msg) (gid : String) :
    AggState × Bool :=
  let old := (st.groups gid).getD []
  let newList := old ++ [msg]
  (⟨fun g => if g = gid then some newList else st.groups g⟩,
   decide (newList.length = 1))

/-- MessageHandlers.message_handler dispatch (handlers.py:154-166) restricted
to the aggregation decision: a message with no media_group_id is dispatched
immediately as a one-message batch (no debounce scheduled); one with a group
id is appended via handle_media_group_message. -/
def message_arrival (st : AggState) (msg : Msg) : AggState × Bool :=
  match msg.media_group_id with
  | none => (st, false)
  | some gid => handle_media_group_message st msg gid

/-- A burst of inbound messages handled in arrival order; the Nat counts how
many debounce tasks were scheduled along the way. -/
def arrival_burst : AggState → List Msg → AggState × Nat
  | st, [] => (st, 0)
  | st, m :: ms =>
      let r := message_arrival st m
      let r2 := arrival_burst r.1 ms
      (r2.1, (if r.2 then 1 else 0) + r2.2)

/-- The comparison passed to `messages.sort(key=lambda msg: msg.message_id)`
(handlers.py:222). -/
def msgLe (a b : Msg) : Bool :=
  decide (a.message_id ≤ b.message_id)

/-- MessageHandlers.process_media_group after its debounce sleep
(handlers.py:210-231): if the group id has vanished from the dict, abort with
no batch; otherwise sort the accumulated messages by message_id, delete the
group entry, and hand the ordered batch off (the returned Option). -/
def process_media_group (st : AggState) (gid : String) :
    AggState × Option (List Msg) :=
  match st.groups gid with
  | none => (st, none)
  | some msgs =>
      (⟨fun g => if g = gid then none else st.groups g⟩,
       some (msgs.mergeSort msgLe))

/-- models/conversation.py ConversationHistory: the persisted conversation
state, an ordered turn history plus the stage marker naming the agent that
should resume the conversation. -/
structure ConvHistory where
  input_list : List TurnItem
  last_agent_name : String
deriving DecidableEq

/-- The four agent names constructed in AIService (ai_service.py:356-457). -/
def hub_agent_name : String := "hub_agent"

def document_processor_agent_name : String := "document_processor_agent"

def price_negotiator_agent_name : String := "price_negotiator_agent"

def insurance_policy_agent_name : String := "insurance_policy_agent"

def known_agent_names : List String :=
  [hub_agent_name, document_processor_agent_name,
   price_negotiator_agent_name, insurance_policy_agent_name]

/-- Exceptions that can propagate out of AIService.respond, as the handler
layer observes them (it catches them all alike). -/
inductive RespondError where
  | valueError
  | indexError
  | runnerError
  | sendError
deriving DecidableEq

/-- The starting-agent selection chain of AIService.respond
(ai_service.py:468-480): no stored history starts at the hub agent; a stored
stage naming one of the four agents resumes there; anything else raises
ValueError. -/
def select_starting_agent (history : Option ConvHistory) :
    Except RespondError String :=
  match history with
  | none => Except.ok hub_agent_name
  | some h =>
      if h.last_agent_name = hub_agent_name then Except.ok hub_agent_name
      else if h.last_agent_name = document_processor_agent_name then
        Except.ok document_processor_agent_name
      else if h.last_agent_name = price_negotiator_agent_name then
        Except.ok price_negotiator_agent_name
      else if h.last_agent_name = insurance_policy_agent_name then
        Except.ok insurance_policy_agent_name
      else Except.error RespondError.valueError

/-- ai_service.py:482-506: the base input list is empty with no stored
history, and otherwise the stored list with the trim loop applied (whose
IndexError at max_messages = 0 propagates). -/
def base_input_list (max_messages : Nat) (history : Option ConvHistory) :
    Except RespondError (List TurnItem) :=
  match history with
  | none => Except.ok []
  | some h =>
      match trim_input_list max_messages h.input_list with
      | some l => Except.ok l
      | none => Except.error RespondError.indexError

/-- `if message.text:` (ai_service.py:513): a present, non-empty text. -/
def text_part (m : Msg) : List String :=
  match m.text with
  | some t => if t = "" then [] else [t]
  | none => []

/-- ai_service.py:516-526: the XML attachment snippets for one message. -/
def attachment_parts (m : Msg) : List String :=
  (match m.document with
   | some fid => ["<document><file_id>" ++ fid ++ "</file_id></document>"]
   | none => []) ++
  (match m.photo.getLast? with
   | some fid => ["<photo><file_id>" ++ fid ++ "</file_id></photo>"]
   | none => [])

/-- ai_service.py:508-534: merge the batch into one content string. -/
def merged_content (messages : List Msg) : String :=
  let texts := (messages.map text_part).flatten
  let atts := (messages.map attachment_parts).flatten
  let merged_text := String.intercalate " " texts
  let attachments_xml :=
    if atts = [] then ""
    else "\n<attachments>" ++ String.intercalate " " atts ++ "</attachments>"
  merged_text ++ attachments_xml

/-- The outcome of the opaque `Runner.run` collaborator call
(ai_service.py:539-543): either a final output string together with
`result.to_input_list()` and `result.last_agent.name`, or a raised
exception. -/
inductive RunnerResult where
  | ok (finalOutput : String) (newInputList : List TurnItem)
      (lastAgent : String)
  | exn
deriving DecidableEq

/-- Externally observable actions of one turn, in program order.  A
`sendDelivered` is a bot.send_message call that succeeds; `sendRaised` is one
that raises TelegramAPIError. -/
inductive Effect where
  | runnerCall (chatId : Int) (startingAgent : String)
      (inputList : List TurnItem)
  | sendDelivered (chatId : Int) (text : String)
  | sendRaised (chatId : Int) (text : String)
  | deleteRow (chatId : Int)
  | saveRow (chatId : Int)
  | setBusy (chatId : Int) (b : Bool)
  | startTyping (chatId : Int)
  | cancelTyping (chatId : Int)
deriving DecidableEq

/-- Result of one AIService.respond call: the conversation store afterwards,
the effect trace, and the exception that propagated, if any. -/
structure RespondResult where
  store : Int → Option ConvHistory
  effects : List Effect
  err : Option RespondError

/-- AIService.respond (ai_service.py:459-556).  The sqlite store is embedded
as a map from chat id to decoded state; `runner` fixes the outcome of the
opaque collaborator call and `sendOk` whether bot.send_message of the final
output succeeds (a raised TelegramAPIError propagates out of respond, so the
returned history is then not saved). -/
def respond (max_messages : Nat) (store : Int → Option ConvHistory)
    (runner : RunnerResult) (sendOk : Bool) (messages : List Msg) :
    RespondResult :=
  match messages with
  | [] => ⟨store, [], none⟩
  | m0 :: _ =>
      let chatId := m0.chat
      let history := store chatId
      match select_starting_agent history with
      | Except.error e => ⟨store, [], some e⟩
      | Except.ok startingAgent =>
          match base_input_list max_messages history with
          | Except.error e => ⟨store, [], some e⟩
          | Except.ok base =>
              let inputList :=
                base ++ [⟨none, merged_content messages, "user"⟩]
              match runner with
              | RunnerResult.exn =>
                  ⟨store, [Effect.runnerCall chatId startingAgent inputList],
                   some RespondError.runnerError⟩
              | RunnerResult.ok out newList lastAgent =>
                  if out = "" then
                    ⟨fun c => if c = chatId then none else store c,
                     [Effect.runnerCall chatId startingAgent inputList,
                      Effect.deleteRow chatId], none⟩
                  else if sendOk then
                    ⟨fun c =>
                       if c = chatId then some ⟨newList, lastAgent⟩
                       else store c,
                     [Effect.runnerCall chatId startingAgent inputList,
                      Effect.sendDelivered chatId out,
                      Effect.saveRow chatId], none⟩
                  else
                    ⟨store,
                     [Effect.runnerCall chatId startingAgent inputList,
                      Effect.sendRaised chatId out],
                     some RespondError.sendError⟩

/-- Per-conversation dispatcher state of MessageHandlers: the persisted store
together with the process-local `is_processing_map` (busy flags, read with
default False) and the chat ids holding a registered entry in
`_active_typing_tasks` (handlers.py:43-48). -/
structure HState where
  store : Int → Option ConvHistory
  is_processing : Int → Bool
  typing_registered : Int → Bool

/-- The fixed apology text of handlers.py:121. -/
def generic_error_text : String :=
  "Sorry, I encountered an error while processing your message. Please try again later."

/-- MessageHandlers.process_message_batch (handlers.py:78-139).  An empty
batch returns at once; a batch for a busy conversation is dropped; otherwise
the busy flag is set, the typing task started and registered, respond awaited
with every exception caught, on failure the generic apology is attempted
(`notifyOk` says whether that send succeeds; a TelegramAPIError from it is
swallowed), and the finally-block clears the busy flag and cancels the typing
task, whose own finally-block (handlers.py:73-76) removes its registration
when the cancelled task next runs. -/
def process_message_batch (max_messages : Nat) (st : HState)
    (runner : RunnerResult) (sendOk notifyOk : Bool) (messages : List Msg) :
    HState × List Effect :=
  match messages with
  | [] => (st, [])
  | m0 :: _ =>
      let chatId := m0.chat
      if st.is_processing chatId then (st, [])
      else
        let r := respond max_messages st.store runner sendOk messages
        let notifyEffects :=
          match r.err with
          | some _ =>
              if notifyOk then [Effect.sendDelivered chatId generic_error_text]
              else [Effect.sendRaised chatId generic_error_text]
          | none => []
        (⟨r.store,
          fun c => if c = chatId then false else st.is_processing c,
          fun c => if c = chatId then false else st.typing_registered c⟩,
         Effect.setBusy chatId true :: Effect.startTyping chatId ::
           (r.effects ++ notifyEffects ++
             [Effect.cancelTyping chatId, Effect.setBusy chatId false]))

/-- Outcome of DatabaseService.get_conversation_history as its caller sees
it: a returned value or a propagated exception. -/
inductive GetResult where
  | ok (h : Option ConvHistory)
  | raised
deriving DecidableEq

/-- Outcome of `pickle.loads` on one stored blob.  The pickle module raises
pickle.PickleError subclasses on most malformed input but is documented to
raise other exceptions as well, e.g. EOFError on truncated input; the source
catches only sqlite3.Error and pickle.PickleError (database.py:105). -/
inductive DecodeOutcome where
  | ok (h : ConvHistory)
  | pickleError
  | otherError
deriving DecidableEq

/-- DatabaseService.get_conversation_history (database.py:79-107): fetch the
row for the chat id (`db`, blobs embedded as strings), decode its blob with
`decode`; no row gives None, a caught decode failure gives None, any other
exception propagates. -/
def get_conversation_history (decode : String → DecodeOutcome)
    (db : Int → Option String) (chat_id : Int) : GetResult :=
  match db chat_id with
  | none => GetResult.ok none
  | some blob =>
      match decode blob with
      | DecodeOutcome.ok h => GetResult.ok (some h)
      | DecodeOutcome.pickleError => GetResult.ok none
      | DecodeOutcome.otherError => GetResult.raised

/-- Number of successful bot.send_message calls of text `t` to `chatId` in an
effect trace. -/
def deliveredCount (chatId : Int) (t : String) (effs : List Effect) : Nat :=
  (effs.filter (fun e => decide (e = Effect.sendDelivered chatId t))).length

/-- A decode function for the C7 counterexample, modelling the documented
behavior of pickle.loads on an empty (truncated) blob: it raises EOFError,
which is not a pickle.PickleError subclass and so is not caught by
database.py:105; any other blob here fails with a PickleError. -/
def empty_blob_decode : String → DecodeOutcome :=
  fun b => if b = "" then DecodeOutcome.otherError
           else DecodeOutcome.pickleError

theorem trimRest_length_le (x : TurnItem) (xs : List TurnItem) :
    (trimRest x xs).length ≤ xs.length := by
  unfold trimRest
  cases truthyCallId x with
  | none => exact Nat.le_refl _
  | some c => exact List.length_filter_le _ _

theorem trim_input_list_eq (m : Nat) (l : List TurnItem) :
    trim_input_list m l =
      if m ≤ l.length then
        match l with
        | [] => none
        | x :: xs => trim_input_list m (trimRest x xs)
      else some l := by
  rw [trim_input_list.eq_def]

theorem trimRest_sublist (x : TurnItem) (xs : List TurnItem) :
    (trimRest x xs).Sublist xs := by
  unfold trimRest
  cases truthyCallId x with
  | none => exact List.Sublist.refl _
  | some c => exact List.filter_sublist _

theorem trim_sublist (m : Nat) (l r : List TurnItem)
    (h : trim_input_list m l = some r) : r.Sublist l := by
  induction l using trim_input_list.induct with
  | m => exact m
  | case1 h1 =>
      rw [trim_input_list_eq] at h
      simp only [List.length_nil] at h1
      simp [h1, Nat.le_zero] at h
  | case2 x xs h1 ih =>
      rw [trim_input_list_eq] at h
      simp only [h1, if_pos] at h
      exact (ih h).trans ((trimRest_sublist x xs).trans (List.sublist_cons_self x xs))
  | case3 x h1 =>
      rw [trim_input_list_eq] at h
      simp [h1] at h
      simp [h]

theorem trim_zero (l : List TurnItem) : trim_input_list 0 l = none := by
  induction l using trim_input_list.induct with
  | m => exact 0
  | case1 h1 => rw [trim_input_list_eq]; simp
  | case2 x xs h1 ih => rw [trim_input_list_eq]; simpa using ih
  | case3 x h1 => simp at h1

theorem trim_total (m : Nat) (l : List TurnItem) (hm : 1 ≤ m) :
    ∃ r, trim_input_list m l = some r := by
  induction l using trim_input_list.induct with
  | m => exact m
  | case1 h1 => simp at h1; omega
  | case2 x xs h1 ih => rw [trim_input_list_eq, if_pos h1]; exact ih
  | case3 x h1 => rw [trim_input_list_eq]; simp [h1]

theorem trim_length_lt (m : Nat) (l r : List TurnItem)
    (h : trim_input_list m l = some r) : r.length < m := by
  induction l using trim_input_list.induct with
  | m => exact m
  | case1 h1 =>
      rw [trim_input_list_eq] at h
      simp only [List.length_nil] at h1
      simp [h1, Nat.le_zero] at h
  | case2 x xs h1 ih =>
      rw [trim_input_list_eq] at h
      simp only [h1, if_pos] at h
      exact ih h
  | case3 x h1 =>
      rw [trim_input_list_eq] at h
      simp [h1] at h
      subst h
      omega

theorem truthyCallId_eq_some (x : TurnItem) (c : String)
    (h : truthyCallId x = some c) : x.callId = some c ∧ c ≠ "" := by
  unfold truthyCallId at h
  cases hc : x.callId with
  | none => rw [hc] at h; exact absurd h (by simp)
  | some c0 =>
      rw [hc] at h
      by_cases h0 : c0 = ""
      · simp [h0] at h
      · simp [h0] at h
        subst h
        exact ⟨rfl, h0⟩

theorem truthyCallId_eq_none (x : TurnItem) (c : String) (hc : c ≠ "")
    (h : truthyCallId x = none) : x.callId ≠ some c := by
  unfold truthyCallId at h
  cases hcall : x.callId with
  | none => simp [hcall]
  | some c0 =>
      rw [hcall] at h
      by_cases h0 : c0 = ""
      · subst h0
        simp
        intro hEq
        exact hc hEq.symm
      · simp [h0] at h

theorem callIdCount_mono (m : Nat) (l r : List TurnItem)
    (h : trim_input_list m l = some r) (c : String) :
    callIdCount c r ≤ callIdCount c l :=
  List.Sublist.length_le (List.Sublist.filter _ (trim_sublist m l r h))

theorem callIdCount_trimRest_zero (c : String) (x : TurnItem)
    (xs : List TurnItem) (hx : truthyCallId x = some c) :
    callIdCount c (trimRest x xs) = 0 := by
  unfold trimRest
  rw [hx]
  unfold callIdCount
  rw [List.length_eq_zero, List.filter_eq_nil_iff]
  intro a ha
  have h2 := (List.mem_filter.mp ha).2
  simp at h2 ⊢
  exact h2

theorem callIdCount_trimRest_of_ne (c : String) (x : TurnItem)
    (xs : List TurnItem) (hx : ∀ c2, truthyCallId x = some c2 → c2 ≠ c) :
    callIdCount c (trimRest x xs) = callIdCount c xs := by
  unfold trimRest
  cases h : truthyCallId x with
  | none => rfl
  | some c2 =>
      have hne : c2 ≠ c := hx c2 h
      unfold callIdCount
      rw [List.filter_filter]
      congr 1
      apply List.filter_congr
      intro a _
      by_cases ha : a.callId = some c
      · simp [ha, hne.symm]
      · simp [ha]

theorem callIdCount_cons_of_ne (c : String) (x : TurnItem)
    (xs : List TurnItem) (hxc : ¬ x.callId = some c) :
    callIdCount c (x :: xs) = callIdCount c xs := by
  simp [callIdCount, List.filter_cons, hxc]

theorem trim_pairing (m : Nat) (l r : List TurnItem)
    (h : trim_input_list m l = some r) (c : String) (hc : c ≠ "") :
    callIdCount c r = callIdCount c l ∨ callIdCount c r = 0 := by
  induction l using trim_input_list.induct with
  | m => exact m
  | case1 h1 =>
      rw [trim_input_list_eq] at h
      simp only [List.length_nil] at h1
      simp [h1, Nat.le_zero] at h
  | case2 x xs h1 ih =>
      rw [trim_input_list_eq] at h
      simp only [h1, if_pos] at h
      cases hx : truthyCallId x with
      | some c2 =>
          by_cases hcc : c2 = c
          · right
            subst hcc
            have h0 := callIdCount_trimRest_zero c2 x xs hx
            have hmono := callIdCount_mono m (trimRest x xs) r h c2
            omega
          · have hxc : ¬ x.callId = some c := by
              intro hEq
              have h5 := truthyCallId_eq_some x c2 hx
              rw [h5.1] at hEq
              injection hEq with h6
              exact hcc h6
            have hx3 : ∀ c3, truthyCallId x = some c3 → c3 ≠ c := by
              intro c3 h3
              rw [hx] at h3
              injection h3 with h4
              exact h4 ▸ hcc
            have hrest := callIdCount_trimRest_of_ne c x xs hx3
            rcases ih h with h2 | h2
            · left
              rw [h2, hrest, callIdCount_cons_of_ne c x xs hxc]
            · right
              exact h2
      | none =>
          have hxc : ¬ x.callId = some c := truthyCallId_eq_none x c hc hx
          have hrest : trimRest x xs = xs := by
            unfold trimRest
            rw [hx]
          rcases ih h with h2 | h2
          · left
            rw [h2, hrest, callIdCount_cons_of_ne c x xs hxc]
          · right
            exact h2
  | case3 x h1 =>
      rw [trim_input_list_eq, if_neg h1] at h
      injection h with h2
      left
      rw [h2]

theorem arrival_burst_present (gid : String) :
    ∀ (ms : List Msg) (st : AggState) (l : List Msg),
      st.groups gid = some l → l ≠ [] →
      (∀ x ∈ ms, x.media_group_id = some gid) →
      (arrival_burst st ms).2 = 0 ∧
        (arrival_burst st ms).1.groups gid = some (l ++ ms)
  | [], st, l, h, hne, hall => by simp [arrival_burst, h]
  | m :: ms, st, l, h, hne, hall => by
      have hm : m.media_group_id = some gid := hall m (List.mem_cons_self m ms)
      have step : message_arrival st m =
          (⟨fun g => if g = gid then some (l ++ [m]) else st.groups g⟩,
           false) := by
        simp [message_arrival, hm, handle_media_group_message, h, hne]
      have hrec := arrival_burst_present gid ms
        ⟨fun g => if g = gid then some (l ++ [m]) else st.groups g⟩ (l ++ [m])
        (by simp) (by simp) (fun x hx => hall x (List.mem_cons_of_mem m hx))
      constructor
      · simp [arrival_burst, step, hrec.1]
      · simp only [arrival_burst, step]
        simpa [List.append_assoc] using hrec.2

theorem sorted_batch (pending : List Msg) :
    List.Pairwise (fun a b => a.message_id ≤ b.message_id)
      (pending.mergeSort msgLe) := by
  have htrans : ∀ a b c : Msg,
      msgLe a b = true → msgLe b c = true → msgLe a c = true := by
    intro a b c hab hbc
    simp [msgLe] at hab hbc ⊢
    omega
  have htotal : ∀ a b : Msg, (msgLe a b || msgLe b a) = true := by
    intro a b
    simp [msgLe]
    omega
  have h := List.sorted_mergeSort htrans htotal pending
  exact h.imp (fun hab => by simpa [msgLe] using hab)

/-- C1: starting with no pending entry for a group id, a burst of N ≥ 1
messages all carrying that group id schedules exactly one debounce task (only
the first message of the group schedules), accumulates exactly those messages
in arrival order, and the woken debounce removes the pending entry and hands
off a single batch containing exactly those N messages; a debounce waking on
a vanished group aborts with no batch. -/
theorem C1_aggregator_exactly_one_batch (st : AggState) (gid : String)
    (m : Msg) (ms : List Msg)
    (hstart : st.groups gid = none)
    (hall : ∀ x ∈ m :: ms, x.media_group_id = some gid) :
    (arrival_burst st (m :: ms)).2 = 1 ∧
    (arrival_burst st (m :: ms)).1.groups gid = some (m :: ms) ∧
    ((process_media_group (arrival_burst st (m :: ms)).1 gid).2.getD
      []).Perm (m :: ms) ∧
    (process_media_group (arrival_burst st (m :: ms)).1 gid).1.groups gid
      = none ∧
    (∀ st2 : AggState, st2.groups gid = none →
      process_media_group st2 gid = (st2, none)) := by
  have hm : m.media_group_id = some gid := hall m (List.mem_cons_self m ms)
  have step : message_arrival st m =
      (⟨fun g => if g = gid then some [m] else st.groups g⟩, true) := by
    simp [message_arrival, hm, handle_media_group_message, hstart]
  have hrec := arrival_burst_present gid ms
    ⟨fun g => if g = gid then some [m] else st.groups g⟩ [m]
    (by simp) (by simp) (fun x hx => hall x (List.mem_cons_of_mem m hx))
  have hcount : (arrival_burst st (m :: ms)).2 = 1 := by
    simp [arrival_burst, step, hrec.1]
  have hgroups : (arrival_burst st (m :: ms)).1.groups gid = some (m :: ms) := by
    have h2 := hrec.2
    simp only [arrival_burst, step]
    simpa using h2
  refine ⟨hcount, hgroups, ?_, ?_, ?_⟩
  · simp only [process_media_group, hgroups, Option.getD_some]
    exact List.mergeSort_perm (m :: ms) msgLe
  · simp [process_media_group, hgroups]
  · intro st2 h2
    simp [process_media_group, h2]

/-- C1 witness: two concrete messages of group "g1" arriving out of order. -/
theorem C1_aggregator_exactly_one_batch_witness :
    ((⟨fun _ => none⟩ : AggState).groups "g1" = none) ∧
    (arrival_burst ⟨fun _ => none⟩
      [⟨5, 7, some "g1", none, none, []⟩,
       ⟨3, 7, some "g1", none, none, []⟩]).2 = 1 ∧
    (arrival_burst ⟨fun _ => none⟩
      [⟨5, 7, some "g1", none, none, []⟩,
       ⟨3, 7, some "g1", none, none, []⟩]).1.groups "g1" =
      some [⟨5, 7, some "g1", none, none, []⟩,
            ⟨3, 7, some "g1", none, none, []⟩] := by
  have h := C1_aggregator_exactly_one_batch ⟨fun _ => none⟩ "g1"
    ⟨5, 7, some "g1", none, none, []⟩ [⟨3, 7, some "g1", none, none, []⟩]
    rfl (by intro x hx; simp at hx; rcases hx with h1 | h1 <;> simp [h1])
  exact ⟨rfl, h.1, h.2.1⟩

/-- C2: every batch the debounce operation hands off is the mergeSort of the
pending messages of its group by message_id: it is ascending in message_id
and a permutation of what was pending, whatever order the messages were
appended in. -/
theorem C2_batch_sorted_by_message_id (st : AggState) (gid : String)
    (pending : List Msg) (hp : st.groups gid = some pending) :
    (process_media_group st gid).2 = some (pending.mergeSort msgLe) ∧
    List.Pairwise (fun a b => a.message_id ≤ b.message_id)
      (pending.mergeSort msgLe) ∧
    (pending.mergeSort msgLe).Perm pending :=
  ⟨by simp [process_media_group, hp], sorted_batch pending,
   List.mergeSort_perm pending msgLe⟩

/-- C2 witness: the spec scenario — group "g1" received message ids 5 then 3;
the dispatched batch order is [3, 5]. -/
theorem C2_batch_sorted_by_message_id_witness :
    ((⟨fun g => if g = "g1" then
        some [⟨5, 7, some "g1", none, none, []⟩,
              ⟨3, 7, some "g1", none, none, []⟩] else none⟩ : AggState).groups
      "g1" = some [⟨5, 7, some "g1", none, none, []⟩,
                   ⟨3, 7, some "g1", none, none, []⟩]) ∧
    (process_media_group ⟨fun g => if g = "g1" then
        some [⟨5, 7, some "g1", none, none, []⟩,
              ⟨3, 7, some "g1", none, none, []⟩] else none⟩ "g1").2 =
      some [⟨3, 7, some "g1", none, none, []⟩,
            ⟨5, 7, some "g1", none, none, []⟩] := by
  have h := C2_batch_sorted_by_message_id
    ⟨fun g => if g = "g1" then
        some [⟨5, 7, some "g1", none, none, []⟩,
              ⟨3, 7, some "g1", none, none, []⟩] else none⟩ "g1"
    [⟨5, 7, some "g1", none, none, []⟩, ⟨3, 7, some "g1", none, none, []⟩]
    (by simp)
  refine ⟨by simp, ?_⟩
  rw [h.1]
  simp [List.mergeSort, msgLe]

/-- C4: for every turn history and maximum size m ≥ 1 with at least m items,
the trim loop yields a result of length strictly below m, the survivors are a
subsequence of the input (relative order preserved), and for every truthy
correlation id the surviving count is either the full original count or zero,
so correlated request/response pairs are removed together, never split. -/
theorem C4_trimmer_bound_order_pairing (m : Nat) (l : List TurnItem)
    (hm : 1 ≤ m) (hl : m ≤ l.length) :
    ∃ r, trim_input_list m l = some r ∧ r.length < m ∧ r.Sublist l ∧
      ∀ c, c ≠ "" →
        callIdCount c r = callIdCount c l ∨ callIdCount c r = 0 := by
  obtain ⟨r, hr⟩ := trim_total m l hm
  exact ⟨r, hr, trim_length_lt m l r hr, trim_sublist m l r hr,
    fun c hc => trim_pairing m l r hr c hc⟩

/-- C4 witness: a two-item correlated history trimmed at bound 1. -/
theorem C4_trimmer_bound_order_pairing_witness :
    (1 : Nat) ≤ 1 ∧
    (1 : Nat) ≤ ([⟨some "a", "q", "assistant"⟩, ⟨some "a", "r", "tool"⟩] :
      List TurnItem).length ∧
    ∃ r, trim_input_list 1
        [⟨some "a", "q", "assistant"⟩, ⟨some "a", "r", "tool"⟩] = some r ∧
      r.length < 1 ∧
      r.Sublist [⟨some "a", "q", "assistant"⟩, ⟨some "a", "r", "tool"⟩] ∧
      ∀ c, c ≠ "" →
        callIdCount c r =
            callIdCount c
              [⟨some "a", "q", "assistant"⟩, ⟨some "a", "r", "tool"⟩] ∨
          callIdCount c r = 0 :=
  ⟨by decide, by decide,
   C4_trimmer_bound_order_pairing 1
     [⟨some "a", "q", "assistant"⟩, ⟨some "a", "r", "tool"⟩]
     (by decide) (by decide)⟩

/-- C5 counterexample: with maximum size 0 the trim loop does not return the
empty history; the IndexError raised when `input_list[0]` is read from the
emptied list propagates (embedded as `none`). -/
theorem C5_trimmer_m_zero_counterexample :
    trim_input_list 0 [] = none ∧ ¬ trim_input_list 0 [] = some [] := by
  constructor
  · simp [trim_input_list]
  · simp [trim_input_list]

/-- C5 amended: the trim loop terminates on every input; for every maximum
size m ≥ 1 it returns a trimmed history, and in the edge case m = 0 it
terminates by raising an IndexError for every input (embedded as `none`)
rather than returning the empty history. -/
theorem C5_trimmer_totality_amended (m : Nat) (l : List TurnItem) :
    (1 ≤ m → ∃ r, trim_input_list m l = some r) ∧
    (m = 0 → trim_input_list m l = none) := by
  constructor
  · exact trim_total m l
  · intro h
    rw [h]
    exact trim_zero l

/-- C5 witness: the amended statement at concrete inputs. -/
theorem C5_trimmer_totality_amended_witness :
    (∃ r, trim_input_list 1 [⟨none, "x", "user"⟩] = some r) ∧
    trim_input_list 0 [⟨none, "x", "user"⟩] = none :=
  ⟨(C5_trimmer_totality_amended 1 [⟨none, "x", "user"⟩]).1 (by decide),
   (C5_trimmer_totality_amended 0 [⟨none, "x", "user"⟩]).2 rfl⟩

theorem respond_err_invariants (mm : Nat) (store : Int → Option ConvHistory)
    (runner : RunnerResult) (sendOk : Bool) (messages : List Msg) :
    (respond mm store runner sendOk messages).err = none ∨
    ((respond mm store runner sendOk messages).store = store ∧
     ∀ chatId t,
       deliveredCount chatId t
         (respond mm store runner sendOk messages).effects = 0) := by
  cases messages with
  | nil => left; simp [respond]
  | cons m0 rest =>
      unfold respond
      cases hsel : select_starting_agent (store m0.chat) with
      | error e => right; simp [hsel, deliveredCount]
      | ok ag =>
          cases hbase : base_input_list mm (store m0.chat) with
          | error e => right; simp [hsel, hbase, deliveredCount]
          | ok base =>
              cases runner with
              | exn => right; simp [hsel, hbase, deliveredCount]
              | ok out newList lastAgent =>
                  by_cases hout : out = ""
                  · left; simp [hsel, hbase, hout]
                  · by_cases hsend : sendOk = true
                    · left; simp [hsel, hbase, hout, hsend]
                    · right
                      simp [hsel, hbase, hout, hsend, deliveredCount]

/-- C3: per-conversation admission control.  A batch arriving while the
conversation's busy flag is true returns at once with no effects and an
unchanged state (dropped, never queued); otherwise the effect trace opens by
setting the busy flag and closes by clearing it, with the turn processed in
between, and the final state has the busy flag false on the success and the
failure path alike. -/
theorem C3_busy_flag_state_machine (mm : Nat) (st : HState)
    (runner : RunnerResult) (sendOk notifyOk : Bool) (m0 : Msg)
    (rest : List Msg) :
    (st.is_processing m0.chat = true →
      process_message_batch mm st runner sendOk notifyOk (m0 :: rest)
        = (st, [])) ∧
    (st.is_processing m0.chat = false →
      (process_message_batch mm st runner sendOk notifyOk
        (m0 :: rest)).1.is_processing m0.chat = false ∧
      ∃ mid,
        (process_message_batch mm st runner sendOk notifyOk
          (m0 :: rest)).2 =
          Effect.setBusy m0.chat true :: Effect.startTyping m0.chat ::
            (mid ++ [Effect.cancelTyping m0.chat,
                     Effect.setBusy m0.chat false])) := by
  constructor
  · intro hbusy
    simp [process_message_batch, hbusy]
  · intro hidle
    constructor
    · simp [process_message_batch, hidle]
    · refine ⟨(respond mm st.store runner sendOk (m0 :: rest)).effects ++
        (match (respond mm st.store runner sendOk (m0 :: rest)).err with
         | some _ =>
             if notifyOk then
               [Effect.sendDelivered m0.chat generic_error_text]
             else [Effect.sendRaised m0.chat generic_error_text]
         | none => []), ?_⟩
      simp [process_message_batch, hidle]

/-- C3 witness: a busy conversation drops the batch; an idle one completes
with the busy flag back to false. -/
theorem C3_busy_flag_state_machine_witness :
    process_message_batch 64
        ⟨fun _ => none, fun _ => true, fun _ => false⟩
        RunnerResult.exn true true [⟨1, 7, none, some "hi", none, []⟩] =
      (⟨fun _ => none, fun _ => true, fun _ => false⟩, []) ∧
    (process_message_batch 64
        ⟨fun _ => none, fun _ => false, fun _ => false⟩
        RunnerResult.exn true true
        [⟨1, 7, none, some "hi", none, []⟩]).1.is_processing 7 = false := by
  constructor
  · exact (C3_busy_flag_state_machine 64
      ⟨fun _ => none, fun _ => true, fun _ => false⟩
      RunnerResult.exn true true ⟨1, 7, none, some "hi", none, []⟩ []).1 rfl
  · exact ((C3_busy_flag_state_machine 64
      ⟨fun _ => none, fun _ => false, fun _ => false⟩
      RunnerResult.exn true true ⟨1, 7, none, some "hi", none, []⟩ []).2
      rfl).1

/-- C10: the empty message batch is a complete no-op: both
process_message_batch and respond return immediately with state unchanged
and no effects. -/
theorem C10_empty_batch_noop (mm : Nat) (st : HState)
    (store : Int → Option ConvHistory) (runner : RunnerResult)
    (sendOk notifyOk : Bool) :
    process_message_batch mm st runner sendOk notifyOk [] = (st, []) ∧
    (respond mm store runner sendOk []).store = store ∧
    (respond mm store runner sendOk []).effects = [] ∧
    (respond mm store runner sendOk []).err = none :=
  ⟨rfl, rfl, rfl, rfl⟩

/-- C6: when the collaborator call raises, process_message_batch still
returns normally (the exception is caught), the generic apology is delivered
to the user exactly once (zero times only when that notification itself
fails, a failure the handler swallows), the persisted store is left
unmodified, the busy flag returns to false, and the typing task is no longer
registered. -/
theorem C6_collaborator_failure_cleanup (mm : Nat) (st : HState)
    (runner : RunnerResult) (sendOk notifyOk : Bool) (m0 : Msg)
    (rest : List Msg) (e : RespondError)
    (hidle : st.is_processing m0.chat = false)
    (herr : (respond mm st.store runner sendOk (m0 :: rest)).err = some e) :
    (process_message_batch mm st runner sendOk notifyOk
      (m0 :: rest)).1.store = st.store ∧
    (process_message_batch mm st runner sendOk notifyOk
      (m0 :: rest)).1.is_processing m0.chat = false ∧
    (process_message_batch mm st runner sendOk notifyOk
      (m0 :: rest)).1.typing_registered m0.chat = false ∧
    deliveredCount m0.chat generic_error_text
        (process_message_batch mm st runner sendOk notifyOk (m0 :: rest)).2
      = (if notifyOk then 1 else 0) := by
  have hinv := respond_err_invariants mm st.store runner sendOk (m0 :: rest)
  rcases hinv with h | h
  · rw [herr] at h
    cases h
  · refine ⟨?_, ?_, ?_, ?_⟩
    · simp [process_message_batch, hidle, h.1]
    · simp [process_message_batch, hidle]
    · simp [process_message_batch, hidle]
    · have hresp := h.2 m0.chat generic_error_text
      cases hnot : notifyOk with
      | true =>
          simp [process_message_batch, hidle, herr, hnot, deliveredCount,
            List.filter_append] at hresp ⊢
          exact hresp
      | false =>
          simp [process_message_batch, hidle, herr, hnot, deliveredCount,
            List.filter_append] at hresp ⊢
          exact hresp

/-- C6 witness: a concrete idle conversation whose collaborator call
raises. -/
theorem C6_collaborator_failure_cleanup_witness :
    ((⟨fun _ => none, fun _ => false, fun _ => false⟩ :
        HState).is_processing 7 = false) ∧
    ((respond 64 (fun _ => none) RunnerResult.exn true
        [⟨1, 7, none, some "hi", none, []⟩]).err =
      some RespondError.runnerError) ∧
    (process_message_batch 64
        ⟨fun _ => none, fun _ => false, fun _ => false⟩
        RunnerResult.exn true true
        [⟨1, 7, none, some "hi", none, []⟩]).1.is_processing 7 = false ∧
    deliveredCount 7 generic_error_text
        (process_message_batch 64
          ⟨fun _ => none, fun _ => false, fun _ => false⟩
          RunnerResult.exn true true
          [⟨1, 7, none, some "hi", none, []⟩]).2 = 1 := by
  have h := C6_collaborator_failure_cleanup 64
    ⟨fun _ => none, fun _ => false, fun _ => false⟩
    RunnerResult.exn true true ⟨1, 7, none, some "hi", none, []⟩ []
    RespondError.runnerError rfl rfl
  refine ⟨rfl, rfl, h.2.1, ?_⟩
  have h4 := h.2.2.2
  simpa using h4

/-- C8: for a processed turn (agent selection and trimming succeeded) whose
collaborator run returns an empty final output, respond deletes the persisted
row, so the store no longer holds that conversation id; for a non-empty final
output whose delivery succeeds, the output is sent to the remote endpoint and
the returned history and stage are saved under the conversation id. -/
theorem C8_empty_output_deletes_row (mm : Nat)
    (store : Int → Option ConvHistory) (m0 : Msg) (rest : List Msg)
    (newList : List TurnItem) (lastAgent : String) (out : String)
    (sendOk : Bool) (ag : String) (base : List TurnItem)
    (hsel : select_starting_agent (store m0.chat) = Except.ok ag)
    (hbase : base_input_list mm (store m0.chat) = Except.ok base) :
    ((respond mm store (RunnerResult.ok "" newList lastAgent) sendOk
        (m0 :: rest)).store m0.chat = none ∧
     (respond mm store (RunnerResult.ok "" newList lastAgent) sendOk
        (m0 :: rest)).err = none) ∧
    (out ≠ "" →
      (respond mm store (RunnerResult.ok out newList lastAgent) true
          (m0 :: rest)).store m0.chat = some ⟨newList, lastAgent⟩ ∧
      (respond mm store (RunnerResult.ok out newList lastAgent) true
          (m0 :: rest)).effects =
        [Effect.runnerCall m0.chat ag
           (base ++ [⟨none, merged_content (m0 :: rest), "user"⟩]),
         Effect.sendDelivered m0.chat out,
         Effect.saveRow m0.chat]) := by
  constructor
  · constructor <;> simp [respond, hsel, hbase]
  · intro hout
    constructor <;> simp [respond, hsel, hbase, hout]

/-- C8 witness: a fresh conversation, once with empty final output and once
with final output "hello". -/
theorem C8_empty_output_deletes_row_witness :
    (select_starting_agent ((fun _ => none : Int → Option ConvHistory) 7) =
      Except.ok hub_agent_name) ∧
    (base_input_list 64 ((fun _ => none : Int → Option ConvHistory) 7) =
      Except.ok []) ∧
    (respond 64 (fun _ => none)
        (RunnerResult.ok "" [⟨none, "x", "assistant"⟩] "hub_agent") true
        [⟨1, 7, none, some "hi", none, []⟩]).store 7 = none ∧
    (respond 64 (fun _ => none)
        (RunnerResult.ok "hello" [⟨none, "x", "assistant"⟩] "hub_agent") true
        [⟨1, 7, none, some "hi", none, []⟩]).store 7 =
      some ⟨[⟨none, "x", "assistant"⟩], "hub_agent"⟩ := by
  have h := C8_empty_output_deletes_row 64 (fun _ => none)
    ⟨1, 7, none, some "hi", none, []⟩ [] [⟨none, "x", "assistant"⟩]
    "hub_agent" "hello" true hub_agent_name [] rfl rfl
  exact ⟨rfl, rfl, h.1.1, (h.2 (by decide)).1⟩

/-- C9: a stored stage marker naming none of the four known agents makes
respond raise ValueError before the collaborator is called, before any
message is sent (no effects at all) and without modifying the store, and
therefore every subsequent turn for that conversation fails with the same
ValueError as long as the row remains. -/
theorem C9_unknown_agent_value_error (mm : Nat)
    (store : Int → Option ConvHistory) (runner : RunnerResult)
    (sendOk : Bool) (m0 : Msg) (rest : List Msg) (h : ConvHistory)
    (hrow : store m0.chat = some h)
    (hunknown : h.last_agent_name ∉ known_agent_names) :
    (respond mm store runner sendOk (m0 :: rest)).err =
      some RespondError.valueError ∧
    (respond mm store runner sendOk (m0 :: rest)).effects = [] ∧
    (respond mm store runner sendOk (m0 :: rest)).store = store ∧
    ∀ (runner2 : RunnerResult) (sendOk2 : Bool) (rest2 : List Msg),
      (respond mm (respond mm store runner sendOk (m0 :: rest)).store
          runner2 sendOk2 (m0 :: rest2)).err =
        some RespondError.valueError := by
  simp only [known_agent_names, List.mem_cons, List.mem_singleton,
    not_or] at hunknown
  have hsel : select_starting_agent (store m0.chat) =
      Except.error RespondError.valueError := by
    rw [hrow]
    simp [select_starting_agent, hunknown.1, hunknown.2.1,
      hunknown.2.2.1, hunknown.2.2.2]
  have hmain : ∀ (runner3 : RunnerResult) (sendOk3 : Bool)
      (rest3 : List Msg),
      respond mm store runner3 sendOk3 (m0 :: rest3) =
        ⟨store, [], some RespondError.valueError⟩ := by
    intro runner3 sendOk3 rest3
    simp [respond, hsel]
  refine ⟨?_, ?_, ?_, ?_⟩
  · rw [hmain runner sendOk rest]
  · rw [hmain runner sendOk rest]
  · rw [hmain runner sendOk rest]
  · intro runner2 sendOk2 rest2
    rw [hmain runner sendOk rest]
    rw [hmain runner2 sendOk2 rest2]

/-- C9 witness: a stored row whose stage marker is "bogus_agent". -/
theorem C9_unknown_agent_value_error_witness :
    ((fun c => if c = (7 : Int) then
        some (⟨[], "bogus_agent"⟩ : ConvHistory) else none) 7 =
      some (⟨[], "bogus_agent"⟩ : ConvHistory)) ∧
    ("bogus_agent" ∉ known_agent_names) ∧
    (respond 64 (fun c => if c = (7 : Int) then
        some (⟨[], "bogus_agent"⟩ : ConvHistory) else none)
      RunnerResult.exn true [⟨1, 7, none, some "hi", none, []⟩]).err =
      some RespondError.valueError := by
  have h := C9_unknown_agent_value_error 64
    (fun c => if c = (7 : Int) then
      some (⟨[], "bogus_agent"⟩ : ConvHistory) else none)
    RunnerResult.exn true ⟨1, 7, none, some "hi", none, []⟩ []
    ⟨[], "bogus_agent"⟩ (by simp) (by decide)
  exact ⟨by simp, by decide, h.1⟩

/-- C7 counterexample: a stored row holding the empty blob is a blob on which
decoding fails, yet get_conversation_history does not return the absent
marker — the EOFError escapes the except clause and propagates to the
caller. -/
theorem C7_decode_failure_raises_counterexample :
    empty_blob_decode "" = DecodeOutcome.otherError ∧
    get_conversation_history empty_blob_decode (fun _ => some "") 7 =
      GetResult.raised := by
  constructor <;> rfl

/-- C7 amended: get returns the decoded state when a row exists and the
absent marker when none does; a decode failure raising pickle.PickleError is
caught and reported as absent; but a decode failure raising an exception
outside sqlite3.Error and pickle.PickleError (e.g. EOFError on a truncated
blob) propagates to the caller. -/
theorem C7_get_conversation_history_amended
    (decode : String → DecodeOutcome) (db : Int → Option String)
    (chat_id : Int) :
    (db chat_id = none →
      get_conversation_history decode db chat_id = GetResult.ok none) ∧
    (∀ blob h, db chat_id = some blob → decode blob = DecodeOutcome.ok h →
      get_conversation_history decode db chat_id = GetResult.ok (some h)) ∧
    (∀ blob, db chat_id = some blob →
      decode blob = DecodeOutcome.pickleError →
      get_conversation_history decode db chat_id = GetResult.ok none) ∧
    (∀ blob, db chat_id = some blob →
      decode blob = DecodeOutcome.otherError →
      get_conversation_history decode db chat_id = GetResult.raised) := by
  refine ⟨?_, ?_, ?_, ?_⟩
  · intro hdb
    simp [get_conversation_history, hdb]
  · intro blob h hdb hdec
    simp [get_conversation_history, hdb, hdec]
  · intro blob hdb hdec
    simp [get_conversation_history, hdb, hdec]
  · intro blob hdb hdec
    simp [get_conversation_history, hdb, hdec]

/-- C7 witness: the amended contract at concrete rows and decode results. -/
theorem C7_get_conversation_history_amended_witness :
    get_conversation_history empty_blob_decode (fun _ => none) 7 =
      GetResult.ok none ∧
    get_conversation_history
      (fun _ => DecodeOutcome.ok ⟨[], "hub_agent"⟩)
      (fun _ => some "blob") 7 =
      GetResult.ok (some ⟨[], "hub_agent"⟩) ∧
    get_conversation_history empty_blob_decode (fun _ => some "junk") 7 =
      GetResult.ok none := by
  refine ⟨(C7_get_conversation_history_amended empty_blob_decode
      (fun _ => none) 7).1 rfl,
    (C7_get_conversation_history_amended
      (fun _ => DecodeOutcome.ok ⟨[], "hub_agent"⟩)
      (fun _ => some "blob") 7).2.1 "blob" ⟨[], "hub_agent"⟩ rfl rfl,
    (C7_get_conversation_history_amended empty_blob_decode
      (fun _ => some "junk") 7).2.2.1 "junk" rfl ?_⟩
  simp [empty_blob_decode]
